import Mathlib

/-!
Shallow embedding of `ExecutableSignaturePrivate::verify` from
`src/common/utils/executable_signature/executablesignature_linux.cpp`.

The C++ function is a linear cascade of fallible external calls (OpenSSL, stdio)
with early `return false` on each failure, writing a message to `lastError_`.
We model the outcomes of the external calls as a record `Env` (one field per
call site, in the order the source consults them), and translate the function
body literally into `verify : Env → String → VerifyResult`.  Besides the
boolean result and the diagnostic string, the model records a `trace` of the
external calls the function performs, in source order, including the explicit
resource-release calls (`fclose`, `EVP_MD_CTX_free`, `EVP_PKEY_CTX_free`) the
source contains; a release the source never performs has no event constructor
firing for it, exactly as in the code.

File bytes are modelled as `List Nat`.  The SHA-256 digest itself is computed
by OpenSSL; what the model tracks is the exact byte stream fed to
`EVP_DigestUpdate` (the argument of `Event.digestFinal` and the last argument
of `Event.pkeyVerify` is that stream; its SHA-256 digest is what the code
hands to `EVP_PKEY_verify`).

The signature-path derivation (`boost::filesystem::path::parent_path`,
`::stem`, line 164-167 of the source) is modelled on character lists:
`parent_path` is the part before the last `/` (with boost's special case that
the parent of `/x` is `/`), `stem` is the filename cut at its last dot, with
boost's special cases for `.` and `..`.  This matches boost::filesystem v3 on
paths without redundant trailing separators, which is the domain on which the
path-derivation theorems below are stated.
-/

namespace ExecSigLinux

/-- Outcomes of the external calls `verify` makes, one field per call site in
source order.  `pubKey` is the byte string of `g_PublicKeyData`;
`targetChunks` are the successive `fread` results on the target file (the
loop at line 105 stops at the first read returning 0 bytes, so chunks after
an empty chunk are never requested); `digestUpdateFailAt` says which
`EVP_DigestUpdate` call (if any) returns a failure; `sigBytes` is the result
of the single `fread` on the signature file; `verifyResult` is the `int`
returned by `EVP_PKEY_verify` (1 valid, 0 invalid, negative internal error). -/
structure Env where
  pubKey : List Nat
  bioAllocOk : Bool
  bioWriteRet : Int
  targetOpenOk : Bool
  targetErrno : Nat
  mdctxOk : Bool
  digestInitOk : Bool
  targetChunks : List (List Nat)
  digestUpdateFailAt : Option Nat
  digestFinalOk : Bool
  pemParseOk : Bool
  pkeyCtxOk : Bool
  verifyInitOk : Bool
  paddingOk : Bool
  setMdOk : Bool
  keyCheckOk : Bool
  sigOpenOk : Bool
  sigErrno : Nat
  sigBytes : List Nat
  verifyResult : Int

/-- External calls performed by `verify`, in the order the source makes them.
Constructors carrying a `Bool` record whether the call succeeded; `targetOpen`
and `sigOpen` also carry the path passed to `fopen`; `digestFinal` carries the
byte stream that was fed to the digest; `pkeyVerify` carries the signature
blob and the hashed byte stream. -/
inductive Event where
  | bioAlloc
  | bioWrite
  | targetOpen (path : String) (ok : Bool)
  | targetRead (chunk : List Nat)
  | mdctxNew (ok : Bool)
  | digestInit
  | digestUpdate (chunk : List Nat) (ok : Bool)
  | digestFinal (bytes : List Nat) (ok : Bool)
  | mdctxFree
  | targetClose
  | pemParse (ok : Bool)
  | ctxNew (ok : Bool)
  | verifyInit
  | setPadding
  | setSigMd
  | keyCheck
  | sigOpen (path : String) (ok : Bool)
  | sigRead (bytes : List Nat)
  | sigClose
  | pkeyVerify (sig : List Nat) (hashed : List Nat)
  | ctxFree
deriving DecidableEq

/-- Result of one `verify` call: the returned boolean, the diagnostic written
to `lastError_` (empty on success), and the trace of external calls. -/
structure VerifyResult where
  ok : Bool
  lastError : String
  trace : List Event
deriving DecidableEq

/-- The `while ((bytesRead = fread(...)))` hashing loop (source lines 104-111):
processes chunks in order, stopping at the first zero-byte read (end of the
supplied list, or an empty chunk standing for a read that returned 0 — from
EOF or from a read error, which the source does not distinguish).  Returns the
events performed, the byte stream successfully fed to `EVP_DigestUpdate`, and
whether some `EVP_DigestUpdate` call failed (`i` is the index of the current
chunk, compared against `failAt`). -/
def hashChunks : List (List Nat) → Option Nat → Nat → List Event × List Nat × Bool
  | [], _, _ => ([Event.targetRead []], [], false)
  | c :: cs, failAt, i =>
    if c = [] then ([Event.targetRead []], [], false)
    else if failAt = some i then
      ([Event.targetRead c, Event.digestUpdate c false], [], true)
    else
      let r := hashChunks cs failAt (i + 1)
      (Event.targetRead c :: Event.digestUpdate c true :: r.1, c ++ r.2.1, r.2.2)

/-- The bytes the hashing loop feeds to the digest: the concatenation of the
chunks up to (not including) the first zero-byte read. -/
def bytesUntilStop : List (List Nat) → List Nat
  | [] => []
  | c :: cs => if c = [] then [] else c ++ bytesUntilStop cs

/-- `boost::filesystem::path::parent_path().native()`: the part of the path
before the last `/`; empty when there is no `/`; boost's special case: the
parent of `/x` is `/`. -/
def parentChars (s : List Char) : List Char :=
  match s.reverse.dropWhile (fun c => c != '/') with
  | [] => []
  | _ :: rest => if rest = [] then ['/'] else rest.reverse

/-- `boost::filesystem::path::filename()`: the part after the last `/`
(the whole path when there is no `/`). -/
def fileNameChars (s : List Char) : List Char :=
  (s.reverse.takeWhile (fun c => c != '/')).reverse

/-- `boost::filesystem::path::stem().native()` on a filename: `.` and `..`
are returned unchanged; otherwise the filename is cut at its last dot (the
whole filename when it has no dot). -/
def stemChars (fn : List Char) : List Char :=
  if fn = ['.'] ∨ fn = ['.', '.'] then fn
  else
    match fn.reverse.dropWhile (fun c => c != '.') with
    | [] => fn
    | _ :: rest => rest.reverse

/-- Source lines 164-167: `parent_path().native() << "/signatures/" <<
path.stem().native() << ".sig"`. -/
def sigFilePath (exePath : String) : String :=
  ⟨parentChars exePath.data ++ "/signatures/".data
    ++ stemChars (fileNameChars exePath.data) ++ ".sig".data⟩

/-- ASCII apostrophe, as a string. -/
def apos : String := (Char.ofNat 39).toString

def errKeySize (n : Nat) : String :=
  "Invalid public key, size is too large: " ++ toString n ++ " bytes"
def errBioAlloc : String := "Failed to allocate an OpenSSL BIO buffer"
def errBioWrite : String := "Failed to write public key resource to bio"
def errTargetOpen (e : Nat) : String :=
  "Failed to open executable for reading: " ++ toString e
def errMdctxNew : String := "Failed to create SHA256 context"
def errDigestInit : String := "Failed to init SHA256 digest"
def errDigestUpdate : String := "Failed to update SHA256 digest"
def errDigestFinal : String := "Failed to finalize SHA256 digest"
def errPemParse : String := "Failed to load RSA public key"
def errCtxNew : String := "Failed to create RSA context"
def errVerifyInit : String := "Failed to init RSA verify"
def errPadding : String := "Failed to init RSA padding"
def errSetMd : String := "Failed to set RSA signature digest"
def errKeyCheck : String := "Failed to check RSA context"
def errSigOpen (sigFile : String) (e : Nat) : String :=
  "Failed to open signature file (" ++ sigFile ++ ") for reading: " ++ toString e
def errSigSize (n : Nat) : String :=
  "Signature file is an invalid size, or failed to read entire file. Expected 512 bytes, read "
    ++ toString n ++ "."
def errVerifyFail : String :=
  "Executable" ++ apos ++ "s signature does not match signature file"

/-- Source lines 164-197: signature path derivation, signature file open and
read, byte-count check, `EVP_PKEY_verify`, and `EVP_PKEY_CTX_free`.  `hashed`
is the byte stream that was fed to the SHA-256 digest; `tr` is the trace of
the calls already made. -/
def sigStage (env : Env) (exePath : String) (hashed : List Nat)
    (tr : List Event) : VerifyResult :=
  if env.sigOpenOk = false then
    ⟨false, errSigOpen (sigFilePath exePath) env.sigErrno,
      tr ++ [Event.sigOpen (sigFilePath exePath) false]⟩
  else if env.sigBytes.length ≠ 512 then
    ⟨false, errSigSize env.sigBytes.length,
      tr ++ [Event.sigOpen (sigFilePath exePath) true,
             Event.sigRead env.sigBytes, Event.sigClose]⟩
  else if env.verifyResult ≠ 1 then
    ⟨false, errVerifyFail,
      tr ++ [Event.sigOpen (sigFilePath exePath) true,
             Event.sigRead env.sigBytes, Event.sigClose,
             Event.pkeyVerify env.sigBytes hashed, Event.ctxFree]⟩
  else
    ⟨true, "",
      tr ++ [Event.sigOpen (sigFilePath exePath) true,
             Event.sigRead env.sigBytes, Event.sigClose,
             Event.pkeyVerify env.sigBytes hashed, Event.ctxFree]⟩

/-- Source lines 126-162: `PEM_read_bio_PUBKEY`, `EVP_PKEY_CTX_new_from_name`,
`EVP_PKEY_verify_init`, `EVP_PKEY_CTX_set_rsa_padding`,
`EVP_PKEY_CTX_set_signature_md`, `EVP_PKEY_check`, then the signature stage. -/
def rsaStage (env : Env) (exePath : String) (hashed : List Nat)
    (tr : List Event) : VerifyResult :=
  if env.pemParseOk = false then
    ⟨false, errPemParse, tr ++ [Event.pemParse false]⟩
  else if env.pkeyCtxOk = false then
    ⟨false, errCtxNew, tr ++ [Event.pemParse true, Event.ctxNew false]⟩
  else if env.verifyInitOk = false then
    ⟨false, errVerifyInit,
      tr ++ [Event.pemParse true, Event.ctxNew true, Event.verifyInit]⟩
  else if env.paddingOk = false then
    ⟨false, errPadding,
      tr ++ [Event.pemParse true, Event.ctxNew true, Event.verifyInit,
             Event.setPadding]⟩
  else if env.setMdOk = false then
    ⟨false, errSetMd,
      tr ++ [Event.pemParse true, Event.ctxNew true, Event.verifyInit,
             Event.setPadding, Event.setSigMd]⟩
  else if env.keyCheckOk = false then
    ⟨false, errKeyCheck,
      tr ++ [Event.pemParse true, Event.ctxNew true, Event.verifyInit,
             Event.setPadding, Event.setSigMd, Event.keyCheck]⟩
  else
    sigStage env exePath hashed
      (tr ++ [Event.pemParse true, Event.ctxNew true, Event.verifyInit,
              Event.setPadding, Event.setSigMd, Event.keyCheck])

/-- The trace of a run that reached the hashing loop and completed it
(source lines 41-121 on the success path): the BIO setup, the target open,
the digest context setup, the loop events, the finalize, and the two release
calls the source performs there (`EVP_MD_CTX_free`, `fclose`). -/
def hashedTrace (env : Env) (exePath : String) : List Event :=
  [Event.bioAlloc, Event.bioWrite, Event.targetOpen exePath true,
   Event.mdctxNew true, Event.digestInit]
  ++ (hashChunks env.targetChunks env.digestUpdateFailAt 0).1
  ++ [Event.digestFinal (hashChunks env.targetChunks env.digestUpdateFailAt 0).2.1 true,
      Event.mdctxFree, Event.targetClose]

/-- Literal translation of `ExecutableSignaturePrivate::verify(const
std::string&)`, source lines 41-198.  Each `if` mirrors a source-level check
in source order; each early return carries the exact diagnostic the source
writes and the trace of external calls made up to that point (including the
release calls the source performs on that path, and only those). -/
def verify (env : Env) (exePath : String) : VerifyResult :=
  if 800 < env.pubKey.length then
    ⟨false, errKeySize env.pubKey.length, []⟩
  else if env.bioAllocOk = false then
    ⟨false, errBioAlloc, [Event.bioAlloc]⟩
  else if env.bioWriteRet ≤ 0 then
    ⟨false, errBioWrite, [Event.bioAlloc, Event.bioWrite]⟩
  else if env.targetOpenOk = false then
    ⟨false, errTargetOpen env.targetErrno,
      [Event.bioAlloc, Event.bioWrite, Event.targetOpen exePath false]⟩
  else if env.mdctxOk = false then
    ⟨false, errMdctxNew,
      [Event.bioAlloc, Event.bioWrite, Event.targetOpen exePath true,
       Event.mdctxNew false]⟩
  else if env.digestInitOk = false then
    ⟨false, errDigestInit,
      [Event.bioAlloc, Event.bioWrite, Event.targetOpen exePath true,
       Event.mdctxNew true, Event.digestInit]⟩
  else if (hashChunks env.targetChunks env.digestUpdateFailAt 0).2.2 = true then
    ⟨false, errDigestUpdate,
      [Event.bioAlloc, Event.bioWrite, Event.targetOpen exePath true,
       Event.mdctxNew true, Event.digestInit]
      ++ (hashChunks env.targetChunks env.digestUpdateFailAt 0).1⟩
  else if env.digestFinalOk = false then
    ⟨false, errDigestFinal,
      [Event.bioAlloc, Event.bioWrite, Event.targetOpen exePath true,
       Event.mdctxNew true, Event.digestInit]
      ++ (hashChunks env.targetChunks env.digestUpdateFailAt 0).1
      ++ [Event.digestFinal
            (hashChunks env.targetChunks env.digestUpdateFailAt 0).2.1 false]⟩
  else
    rsaStage env exePath
      (hashChunks env.targetChunks env.digestUpdateFailAt 0).2.1
      (hashedTrace env exePath)

/-- The wide-string overload (source lines 200-205) converts the wide path to
a single-byte string (`std::wstring_convert<std::codecvt_utf8_utf16>`, an
external standard-library facility, here a parameter `toBytes`) and calls the
single-byte `verify` on the result. -/
def verifyWide (toBytes : List Nat → String) (env : Env) (exePath : List Nat) :
    VerifyResult :=
  verify env (toBytes exePath)

/-- The flat success condition: every fallible step of the pipeline succeeded
and the cryptographic check passed. -/
def StepsOk (env : Env) : Prop :=
  env.pubKey.length ≤ 800 ∧ env.bioAllocOk = true ∧ 0 < env.bioWriteRet ∧
  env.targetOpenOk = true ∧ env.mdctxOk = true ∧ env.digestInitOk = true ∧
  (hashChunks env.targetChunks env.digestUpdateFailAt 0).2.2 = false ∧
  env.digestFinalOk = true ∧ env.pemParseOk = true ∧ env.pkeyCtxOk = true ∧
  env.verifyInitOk = true ∧ env.paddingOk = true ∧ env.setMdOk = true ∧
  env.keyCheckOk = true ∧ env.sigOpenOk = true ∧
  env.sigBytes.length = 512 ∧ env.verifyResult = 1

/-- The diagnostic of the first failing step among the steps from
`PEM_read_bio_PUBKEY` onward, in the order the source performs them. -/
def firstFailMsgTail (env : Env) (exePath : String) : String :=
  if env.pemParseOk = false then errPemParse
  else if env.pkeyCtxOk = false then errCtxNew
  else if env.verifyInitOk = false then errVerifyInit
  else if env.paddingOk = false then errPadding
  else if env.setMdOk = false then errSetMd
  else if env.keyCheckOk = false then errKeyCheck
  else if env.sigOpenOk = false then errSigOpen (sigFilePath exePath) env.sigErrno
  else if env.sigBytes.length ≠ 512 then errSigSize env.sigBytes.length
  else if env.verifyResult ≠ 1 then errVerifyFail
  else ""

/-- The diagnostic of the first failing step, in the order the source
performs the steps. -/
def firstFailMsg (env : Env) (exePath : String) : String :=
  if 800 < env.pubKey.length then errKeySize env.pubKey.length
  else if env.bioAllocOk = false then errBioAlloc
  else if env.bioWriteRet ≤ 0 then errBioWrite
  else if env.targetOpenOk = false then errTargetOpen env.targetErrno
  else if env.mdctxOk = false then errMdctxNew
  else if env.digestInitOk = false then errDigestInit
  else if (hashChunks env.targetChunks env.digestUpdateFailAt 0).2.2 = true then
    errDigestUpdate
  else if env.digestFinalOk = false then errDigestFinal
  else firstFailMsgTail env exePath

/-- The resources `verify` acquires: the target `FILE*`, the digest context
(`EVP_MD_CTX`), the parsed public key (`EVP_PKEY`), the RSA verification
context (`EVP_PKEY_CTX`), and the signature `FILE*`.  (The BIO buffer and the
read buffer are scoped RAII objects — `wsl::EvpBioCharBuf`,
`std::unique_ptr` — and are released automatically; they are not tracked.) -/
inductive Resource where
  | targetFile
  | mdctx
  | pkey
  | pkeyCtx
  | sigFile
deriving DecidableEq

/-- The resource a successful call acquires: `fopen` on the target,
`EVP_MD_CTX_new`, `PEM_read_bio_PUBKEY`, `EVP_PKEY_CTX_new_from_name`,
`fopen` on the signature file. -/
def acquiresOf : Event → Option Resource
  | Event.targetOpen _ true => some Resource.targetFile
  | Event.mdctxNew true => some Resource.mdctx
  | Event.pemParse true => some Resource.pkey
  | Event.ctxNew true => some Resource.pkeyCtx
  | Event.sigOpen _ true => some Resource.sigFile
  | _ => none

/-- The resource a call releases.  The source calls `fclose` on both files,
`EVP_MD_CTX_free`, and `EVP_PKEY_CTX_free`; it contains no `EVP_PKEY_free`
call at all, so no event releases `Resource.pkey`. -/
def releasesOf : Event → Option Resource
  | Event.mdctxFree => some Resource.mdctx
  | Event.targetClose => some Resource.targetFile
  | Event.sigClose => some Resource.sigFile
  | Event.ctxFree => some Resource.pkeyCtx
  | _ => none

/-- The resources acquired during a run. -/
def acquiredResources (t : List Event) : List Resource := t.filterMap acquiresOf

/-- The resources released during a run. -/
def releasedResources (t : List Event) : List Resource := t.filterMap releasesOf

/-- An environment in which every external call succeeds: a small embedded
key (within the 800-byte bound), a readable 3-byte target, a 512-byte
signature file, and a signature that verifies. -/
def envOK : Env :=
  { pubKey := List.replicate 10 65
    bioAllocOk := true
    bioWriteRet := 800
    targetOpenOk := true
    targetErrno := 0
    mdctxOk := true
    digestInitOk := true
    targetChunks := [[1, 2, 3]]
    digestUpdateFailAt := none
    digestFinalOk := true
    pemParseOk := true
    pkeyCtxOk := true
    verifyInitOk := true
    paddingOk := true
    setMdOk := true
    keyCheckOk := true
    sigOpenOk := true
    sigErrno := 0
    sigBytes := List.replicate 512 7
    verifyResult := 1 }

/-- `envOK` with an embedded key of 801 bytes (over the sanity bound). -/
def envBadKey : Env := { envOK with pubKey := List.replicate 801 65 }

/-- `envOK` with a signature file read of 511 bytes. -/
def envShortSig : Env := { envOK with sigBytes := List.replicate 511 7 }

/-- `envOK` with `PEM_read_bio_PUBKEY` failing (key materialization fails). -/
def envPemFail : Env := { envOK with pemParseOk := false }

/-- `envOK` with `EVP_PKEY_verify` reporting the signature invalid (0). -/
def envMismatch : Env := { envOK with verifyResult := 0 }

/-- `envOK` with `EVP_PKEY_verify` reporting an internal error (-1). -/
def envInternalErr : Env := { envOK with verifyResult := -1 }

/-- `envOK` with `EVP_DigestInit_ex` failing. -/
def envDigestInitFail : Env := { envOK with digestInitOk := false }

/-- `envOK` with a target read sequence whose second read returns 0 bytes
(EOF or read error) while more data would remain: chunks `[1,2]`, then `[]`,
then `[3,4]` (never requested). -/
def envEarlyStop : Env := { envOK with targetChunks := [[1, 2], [], [3, 4]] }

/-- A concrete model of the wide-to-narrow conversion for ASCII code units
(each unit mapped to the character of that code point), used to instantiate
the conversion parameter of `verifyWide`. -/
def toBytesASCII (l : List Nat) : String := ⟨l.map Char.ofNat⟩

lemma data_append (a b : String) : (a ++ b).data = a.data ++ b.data := rfl

lemma str_ext {a b : String} (h : a.data = b.data) : a = b := by
  cases a
  cases b
  cases h
  rfl

/-- With no injected `EVP_DigestUpdate` failure, the hashing loop succeeds
and feeds the digest exactly the chunks up to the first zero-byte read. -/
lemma hashChunks_none (cs : List (List Nat)) (i : Nat) :
    (hashChunks cs none i).2.2 = false ∧
      (hashChunks cs none i).2.1 = bytesUntilStop cs := by
  induction cs generalizing i with
  | nil => simp [hashChunks, bytesUntilStop]
  | cons c cs ih =>
    by_cases hc : c = []
    · simp [hashChunks, bytesUntilStop, hc]
    · simp [hashChunks, bytesUntilStop, hc, (ih (i + 1)).1, (ih (i + 1)).2]

/-- The hashing loop only performs reads and digest updates. -/
lemma hashChunks_events (cs : List (List Nat)) (f : Option Nat) (i : Nat) :
    ∀ e ∈ (hashChunks cs f i).1,
      (∃ c, e = Event.targetRead c) ∨ ∃ c b, e = Event.digestUpdate c b := by
  induction cs generalizing i with
  | nil =>
    intro e he
    simp [hashChunks] at he
    exact Or.inl ⟨[], he⟩
  | cons c cs ih =>
    intro e he
    by_cases hc : c = []
    · simp [hashChunks, hc] at he
      exact Or.inl ⟨[], he⟩
    · by_cases hf : f = some i
      · simp [hashChunks, hc, hf] at he
        rcases he with h | h
        · exact Or.inl ⟨c, h⟩
        · exact Or.inr ⟨c, false, h⟩
      · simp [hashChunks, hc, hf] at he
        rcases he with h | h | h
        · exact Or.inl ⟨c, h⟩
        · exact Or.inr ⟨c, true, h⟩
        · exact ih (i + 1) e h

lemma sigStage_ok_iff (env : Env) (p : String) (h : List Nat) (tr : List Event) :
    (sigStage env p h tr).ok = true ↔
      (env.sigOpenOk = true ∧ env.sigBytes.length = 512 ∧ env.verifyResult = 1) := by
  unfold sigStage
  split_ifs <;> simp_all

lemma rsaStage_ok_iff (env : Env) (p : String) (h : List Nat) (tr : List Event) :
    (rsaStage env p h tr).ok = true ↔
      (env.pemParseOk = true ∧ env.pkeyCtxOk = true ∧ env.verifyInitOk = true ∧
       env.paddingOk = true ∧ env.setMdOk = true ∧ env.keyCheckOk = true ∧
       env.sigOpenOk = true ∧ env.sigBytes.length = 512 ∧ env.verifyResult = 1) := by
  unfold rsaStage
  split_ifs <;> simp_all [sigStage_ok_iff]

/-- `verify` reports success exactly when every fallible step succeeded. -/
lemma verify_ok_iff (env : Env) (p : String) :
    (verify env p).ok = true ↔ StepsOk env := by
  unfold verify StepsOk
  split_ifs <;> simp_all [rsaStage_ok_iff, not_lt, not_le]

lemma sigStage_err (env : Env) (p : String) (h : List Nat) (tr : List Event) :
    (sigStage env p h tr).ok = false →
    (sigStage env p h tr).lastError =
      (if env.sigOpenOk = false then errSigOpen (sigFilePath p) env.sigErrno
       else if env.sigBytes.length ≠ 512 then errSigSize env.sigBytes.length
       else if env.verifyResult ≠ 1 then errVerifyFail
       else "") := by
  unfold sigStage
  split_ifs <;> simp_all

lemma rsaStage_err (env : Env) (p : String) (h : List Nat) (tr : List Event) :
    (rsaStage env p h tr).ok = false →
    (rsaStage env p h tr).lastError = firstFailMsgTail env p := by
  unfold rsaStage firstFailMsgTail
  split_ifs <;> simp_all [sigStage]

/-- On failure, `verify` reports the diagnostic of the first failing step. -/
lemma verify_err (env : Env) (p : String) :
    (verify env p).ok = false →
    (verify env p).lastError = firstFailMsg env p := by
  unfold verify firstFailMsg
  split_ifs <;> first
    | (intro _; rfl)
    | exact rsaStage_err _ _ _ _

lemma mem_sigStage_trace (env : Env) (p : String) (h : List Nat)
    (tr : List Event) (e : Event) (he : e ∈ tr) :
    e ∈ (sigStage env p h tr).trace := by
  unfold sigStage
  split_ifs <;> simp [he]

lemma mem_rsaStage_trace (env : Env) (p : String) (h : List Nat)
    (tr : List Event) (e : Event) (he : e ∈ tr) :
    e ∈ (rsaStage env p h tr).trace := by
  unfold rsaStage
  split_ifs <;> first
    | simp [he]
    | exact mem_sigStage_trace _ _ _ _ _ (by simp [he])

lemma pkeyVerify_mem_sigStage (env : Env) (p : String) (h : List Nat)
    (tr : List Event) (s d : List Nat) :
    Event.pkeyVerify s d ∈ (sigStage env p h tr).trace →
      Event.pkeyVerify s d ∈ tr ∨
        (env.sigBytes.length = 512 ∧ s = env.sigBytes ∧ d = h) := by
  unfold sigStage
  split_ifs <;> intro hm <;> simp_all

lemma pkeyVerify_mem_rsaStage (env : Env) (p : String) (h : List Nat)
    (tr : List Event) (s d : List Nat) :
    Event.pkeyVerify s d ∈ (rsaStage env p h tr).trace →
      Event.pkeyVerify s d ∈ tr ∨
        (env.sigBytes.length = 512 ∧ s = env.sigBytes ∧ d = h) := by
  unfold rsaStage
  split_ifs <;> intro hm
  case _ => simp_all
  case _ => simp_all
  case _ => simp_all
  case _ => simp_all
  case _ => simp_all
  case _ => simp_all
  case _ =>
    rcases pkeyVerify_mem_sigStage _ _ _ _ _ _ hm with hin | hr
    · simp at hin
      exact Or.inl hin
    · exact Or.inr hr

/-- `EVP_PKEY_verify` is reached only with a signature read of exactly 512
bytes, and is passed exactly those bytes and the hashed stream. -/
lemma pkeyVerify_mem_verify (env : Env) (p : String) (s d : List Nat) :
    Event.pkeyVerify s d ∈ (verify env p).trace →
      env.sigBytes.length = 512 ∧ s = env.sigBytes ∧
        d = (hashChunks env.targetChunks env.digestUpdateFailAt 0).2.1 := by
  have hhash : ∀ f i, Event.pkeyVerify s d ∉ (hashChunks env.targetChunks f i).1 := by
    intro f i hmem
    rcases hashChunks_events _ f i _ hmem with ⟨c, hc⟩ | ⟨c, b, hc⟩ <;> simp at hc
  unfold verify
  split_ifs <;> intro hm
  case _ => simp_all
  case _ => simp_all
  case _ => simp_all
  case _ => simp_all
  case _ => simp_all
  case _ => simp_all
  case _ =>
    simp at hm
    exact absurd hm (hhash _ _)
  case _ =>
    simp at hm
    exact absurd hm (hhash _ _)
  case _ =>
    rcases pkeyVerify_mem_rsaStage _ _ _ _ _ _ hm with hin | hr
    · unfold hashedTrace at hin
      simp at hin
      exact absurd hin (hhash _ _)
    · exact hr

/-- `PEM_read_bio_PUBKEY` is reached only after the target file has been
successfully opened, fully read, and closed. -/
lemma pemParse_mem_verify (env : Env) (p : String) (b : Bool) :
    Event.pemParse b ∈ (verify env p).trace →
      Event.targetOpen p true ∈ (verify env p).trace ∧
        Event.targetClose ∈ (verify env p).trace := by
  have hhash : ∀ f i, Event.pemParse b ∉ (hashChunks env.targetChunks f i).1 := by
    intro f i hmem
    rcases hashChunks_events _ f i _ hmem with ⟨c, hc⟩ | ⟨c, b', hc⟩ <;> simp at hc
  unfold verify
  split_ifs <;> intro hm
  case _ => simp_all
  case _ => simp_all
  case _ => simp_all
  case _ => simp_all
  case _ => simp_all
  case _ => simp_all
  case _ =>
    simp at hm
    exact absurd hm (hhash _ _)
  case _ =>
    simp at hm
    exact absurd hm (hhash _ _)
  case _ =>
    constructor
    · exact mem_rsaStage_trace _ _ _ _ _ (by unfold hashedTrace; simp)
    · exact mem_rsaStage_trace _ _ _ _ _ (by unfold hashedTrace; simp)

lemma takeWhile_append_of_forall {p : Char → Bool} {l₁ l₂ : List Char}
    (h : ∀ c ∈ l₁, p c = true) :
    (l₁ ++ l₂).takeWhile p = l₁ ++ l₂.takeWhile p := by
  induction l₁ with
  | nil => simp
  | cons a l ih =>
    have ha : p a = true := h a (List.mem_cons_self a l)
    have ih' := ih fun c hc => h c (List.mem_cons_of_mem a hc)
    simp [List.takeWhile_cons, ha, ih']

lemma dropWhile_append_of_forall {p : Char → Bool} {l₁ l₂ : List Char}
    (h : ∀ c ∈ l₁, p c = true) :
    (l₁ ++ l₂).dropWhile p = l₂.dropWhile p := by
  induction l₁ with
  | nil => simp
  | cons a l ih =>
    have ha : p a = true := h a (List.mem_cons_self a l)
    have ih' := ih fun c hc => h c (List.mem_cons_of_mem a hc)
    simp [List.dropWhile_cons, ha, ih']

lemma dropWhile_eq_nil_of_forall {p : Char → Bool} {l : List Char}
    (h : ∀ c ∈ l, p c = true) : l.dropWhile p = [] := by
  induction l with
  | nil => simp
  | cons a l ih =>
    have ha : p a = true := h a (List.mem_cons_self a l)
    have ih' := ih fun c hc => h c (List.mem_cons_of_mem a hc)
    simp [List.dropWhile_cons, ha, ih']

/-- `parent_path` of `D/F` (with `F` slash-free and `D` nonempty) is `D`. -/
lemma parentChars_concat (D F : List Char) (hD : D ≠ []) (hF : '/' ∉ F) :
    parentChars (D ++ '/' :: F) = D := by
  unfold parentChars
  have hrev : (D ++ '/' :: F).reverse = F.reverse ++ '/' :: D.reverse := by
    simp
  rw [hrev]
  have hall : ∀ c ∈ F.reverse, (c != '/') = true := by
    intro c hc
    have hcF : c ∈ F := List.mem_reverse.mp hc
    have : c ≠ '/' := fun he => hF (he ▸ hcF)
    simpa using this
  rw [dropWhile_append_of_forall hall]
  have hslash : (('/' : Char) != '/') = false := by decide
  rw [List.dropWhile_cons]
  simp [hslash, hD]

/-- `filename` of `D/F` (with `F` slash-free) is `F`. -/
lemma fileNameChars_concat (D F : List Char) (hF : '/' ∉ F) :
    fileNameChars (D ++ '/' :: F) = F := by
  unfold fileNameChars
  have hrev : (D ++ '/' :: F).reverse = F.reverse ++ '/' :: D.reverse := by
    simp
  rw [hrev]
  have hall : ∀ c ∈ F.reverse, (c != '/') = true := by
    intro c hc
    have hcF : c ∈ F := List.mem_reverse.mp hc
    have : c ≠ '/' := fun he => hF (he ▸ hcF)
    simpa using this
  rw [takeWhile_append_of_forall hall]
  have hslash : (('/' : Char) != '/') = false := by decide
  rw [List.takeWhile_cons]
  simp [hslash]

/-- `stem` of `N.E` (with `E` dot-free and nonempty) is `N`. -/
lemma stemChars_of_ext (N E : List Char) (hE : '.' ∉ E) (hEne : E ≠ []) :
    stemChars (N ++ '.' :: E) = N := by
  unfold stemChars
  have hsp : ¬(N ++ '.' :: E = ['.'] ∨ N ++ '.' :: E = ['.', '.']) := by
    rintro (h | h)
    · have hl := congrArg List.length h
      simp [List.length_append] at hl
      have hE0 : E.length = 0 := by omega
      exact hEne (List.length_eq_zero.mp hE0)
    · cases N with
      | nil =>
        simp at h
        subst h
        simp at hE
      | cons a t =>
        simp at h
        have hl := congrArg List.length h.2
        simp [List.length_append] at hl
        have hE0 : E.length = 0 := by omega
        exact hEne (List.length_eq_zero.mp hE0)
  rw [if_neg hsp]
  have hrev : (N ++ '.' :: E).reverse = E.reverse ++ '.' :: N.reverse := by
    simp
  rw [hrev]
  have hall : ∀ c ∈ E.reverse, (c != '.') = true := by
    intro c hc
    have hcE : c ∈ E := List.mem_reverse.mp hc
    have : c ≠ '.' := fun he => hE (he ▸ hcE)
    simpa using this
  rw [dropWhile_append_of_forall hall]
  have hdot : (('.' : Char) != '.') = false := by decide
  rw [List.dropWhile_cons]
  simp [hdot]

/-- `stem` of a dot-free nonempty filename is the filename itself. -/
lemma stemChars_no_dot (N : List Char) (hN : '.' ∉ N) :
    stemChars N = N := by
  unfold stemChars
  have hsp : ¬(N = ['.'] ∨ N = ['.', '.']) := by
    rintro (h | h) <;> subst h <;> simp at hN
  rw [if_neg hsp]
  have hall : ∀ c ∈ N.reverse, (c != '.') = true := by
    intro c hc
    have hcN : c ∈ N := List.mem_reverse.mp hc
    have : c ≠ '.' := fun he => hN (he ▸ hcN)
    simpa using this
  rw [dropWhile_eq_nil_of_forall hall]

/-- Signature path derivation on a target of shape `D/N.E`: sibling
`signatures` directory, stem `N`, fixed `.sig` extension.  The hypotheses
bound the domain to paths on which the character-list model agrees with
boost::filesystem: nonempty `D` with no trailing separator, slash-free `N`,
slash- and dot-free nonempty extension `E`. -/
lemma sigFilePath_concat_ext (D N E : String)
    (hD : D.data ≠ []) ( _hDs : D.data.getLast? ≠ some '/')
    (hN : '/' ∉ N.data) (hE : '/' ∉ E.data) (hEd : '.' ∉ E.data)
    (hEne : E.data ≠ []) :
    sigFilePath (D ++ "/" ++ N ++ "." ++ E) = D ++ "/signatures/" ++ N ++ ".sig" := by
  have hdata : (D ++ "/" ++ N ++ "." ++ E).data
      = D.data ++ '/' :: (N.data ++ '.' :: E.data) := by
    rw [data_append, data_append, data_append, data_append]
    have h1 : ("/" : String).data = ['/'] := rfl
    have h2 : ("." : String).data = ['.'] := rfl
    rw [h1, h2]
    simp
  have hF : '/' ∉ N.data ++ '.' :: E.data := by
    intro h
    rcases List.mem_append.mp h with h | h
    · exact hN h
    · rcases List.mem_cons.mp h with h | h
      · exact absurd h (by decide)
      · exact hE h
  unfold sigFilePath
  rw [hdata, parentChars_concat _ _ hD hF, fileNameChars_concat _ _ hF,
    stemChars_of_ext _ _ hEd hEne]
  apply str_ext
  rw [data_append, data_append, data_append]

/-- Signature path derivation on a target of shape `D/N` with no extension:
the stem is the whole filename, so the result is still `D/signatures/N.sig`. -/
lemma sigFilePath_concat_noext (D N : String)
    (hD : D.data ≠ []) ( _hDs : D.data.getLast? ≠ some '/')
    (hN : '/' ∉ N.data) (hNd : '.' ∉ N.data) :
    sigFilePath (D ++ "/" ++ N) = D ++ "/signatures/" ++ N ++ ".sig" := by
  have hdata : (D ++ "/" ++ N).data = D.data ++ '/' :: N.data := by
    rw [data_append, data_append]
    have h1 : ("/" : String).data = ['/'] := rfl
    rw [h1]
    simp
  unfold sigFilePath
  rw [hdata, parentChars_concat _ _ hD hN, fileNameChars_concat _ _ hN,
    stemChars_no_dot _ hNd]
  apply str_ext
  rw [data_append, data_append, data_append]

/-- Every run of the signature stage opens the derived signature path. -/
lemma sigOpen_mem_sigStage (env : Env) (p : String) (h : List Nat)
    (tr : List Event) :
    Event.sigOpen (sigFilePath p) env.sigOpenOk ∈ (sigStage env p h tr).trace := by
  unfold sigStage
  split_ifs <;> simp_all

lemma sigOpen_mem_rsaStage (env : Env) (p : String) (h : List Nat)
    (tr : List Event)
    (hpem : env.pemParseOk = true) (hctx : env.pkeyCtxOk = true)
    (hvi : env.verifyInitOk = true) (hpad : env.paddingOk = true)
    (hmdset : env.setMdOk = true) (hkc : env.keyCheckOk = true) :
    Event.sigOpen (sigFilePath p) env.sigOpenOk ∈ (rsaStage env p h tr).trace := by
  unfold rsaStage
  simp only [hpem, hctx, hvi, hpad, hmdset, hkc]
  simp only [Bool.true_eq_false, if_false]
  exact sigOpen_mem_sigStage env p h _

/-- When the key size check, BIO setup, target open, and the whole digest
computation succeed, `verify` is the RSA stage run on the hashed bytes with
the digest-phase trace. -/
lemma verify_reaches_rsa (env : Env) (p : String)
    (hkey : env.pubKey.length ≤ 800) (hbio : env.bioAllocOk = true)
    (hwr : 0 < env.bioWriteRet) (hopen : env.targetOpenOk = true)
    (hmd : env.mdctxOk = true) (hdi : env.digestInitOk = true)
    (hup : (hashChunks env.targetChunks env.digestUpdateFailAt 0).2.2 = false)
    (hdf : env.digestFinalOk = true) :
    verify env p = rsaStage env p
      (hashChunks env.targetChunks env.digestUpdateFailAt 0).2.1
      (hashedTrace env p) := by
  unfold verify
  rw [if_neg (Nat.not_lt.mpr hkey)]
  simp [hbio, not_le.mpr hwr, hopen, hmd, hdi, hup, hdf]

set_option maxRecDepth 20000

/-- C1: `verify` returns `ok = true` exactly when every pipeline step (key
size check, BIO setup, target open, digest computation, signature open and
512-byte read) succeeded and `EVP_PKEY_verify` returned 1; on every failure
it returns `ok = false` with the diagnostic of the first failing step. -/
theorem claim_C1 (env : Env) (p : String) :
    ((verify env p).ok = true ↔ StepsOk env) ∧
    ((verify env p).ok = false →
      (verify env p).lastError = firstFailMsg env p) :=
  ⟨verify_ok_iff env p, verify_err env p⟩

/-- Witness for C1 at a concrete failing input (embedded key of 801 bytes). -/
theorem claim_C1_witness :
    (verify envBadKey "/a/b/prog.bin").ok = false ∧
    (verify envBadKey "/a/b/prog.bin").lastError
      = firstFailMsg envBadKey "/a/b/prog.bin" := by
  refine ⟨by decide, ?_⟩
  exact (claim_C1 envBadKey "/a/b/prog.bin").2 (by decide)

/-- C2 counterexample: on target `/a/b/prog.bin` (with every step
succeeding), `verify` opens `/a/b/signatures/prog.sig` — boost `stem()`
strips the `.bin` extension — and never opens
`/a/b/signatures/prog.bin.sig` as the claim states. -/
theorem claim_C2_cex :
    Event.sigOpen "/a/b/signatures/prog.sig" true
        ∈ (verify envOK "/a/b/prog.bin").trace ∧
    (∀ b, Event.sigOpen "/a/b/signatures/prog.bin.sig" b
        ∉ (verify envOK "/a/b/prog.bin").trace) := by
  decide

/-- C2 (amended): for the target path `/a/b/prog.bin`, the signature file
path that `verify` derives and attempts to open is exactly
`/a/b/signatures/prog.sig` (the target extension is dropped by `stem()`). -/
theorem claim_C2 :
    sigFilePath "/a/b/prog.bin" = "/a/b/signatures/prog.sig" ∧
    Event.sigOpen "/a/b/signatures/prog.sig" true
      ∈ (verify envOK "/a/b/prog.bin").trace := by
  decide

/-- C3: for every target path of the form `D/N.ext` the derived signature
path is `D/signatures/N.sig` (sibling `signatures` directory, same stem,
fixed `.sig` extension), and the same derivation holds when the filename has
no extension; `N` may itself contain dots (an unusual name).  The hypotheses
delimit the shape: nonempty `D` without a trailing separator, slash-free
name and extension, dot-free nonempty extension.  `sigFilePath` is the path
`verify` passes to `fopen` for the signature file (see `sigStage`). -/
theorem claim_C3 (D : String) (hD : D.data ≠ [])
    (hDs : D.data.getLast? ≠ some '/') :
    (∀ N E : String, '/' ∉ N.data → '/' ∉ E.data → '.' ∉ E.data →
      E.data ≠ [] →
      sigFilePath (D ++ "/" ++ N ++ "." ++ E)
        = D ++ "/signatures/" ++ N ++ ".sig") ∧
    (∀ N : String, '/' ∉ N.data → '.' ∉ N.data →
      sigFilePath (D ++ "/" ++ N) = D ++ "/signatures/" ++ N ++ ".sig") :=
  ⟨fun N E hN hE hEd hEne => sigFilePath_concat_ext D N E hD hDs hN hE hEd hEne,
   fun N hN hNd => sigFilePath_concat_noext D N hD hDs hN hNd⟩

/-- Witness for C3 at concrete paths, with and without an extension. -/
theorem claim_C3_witness :
    sigFilePath ("/a/b" ++ "/" ++ "prog" ++ "." ++ "bin")
      = "/a/b" ++ "/signatures/" ++ "prog" ++ ".sig" ∧
    sigFilePath ("/a/b" ++ "/" ++ "README")
      = "/a/b" ++ "/signatures/" ++ "README" ++ ".sig" :=
  ⟨(claim_C3 "/a/b" (by decide) (by decide)).1 "prog" "bin"
      (by decide) (by decide) (by decide) (by decide),
   (claim_C3 "/a/b" (by decide) (by decide)).2 "README" (by decide) (by decide)⟩

/-- C4: when every step up to and including the signature-file open succeeds
but the signature read returns a byte count other than 512, `verify` returns
`ok = false`, the diagnostic states the expected size 512 and the actual
count, and `EVP_PKEY_verify` is never invoked. -/
theorem claim_C4 (env : Env) (p : String)
    (hkey : env.pubKey.length ≤ 800) (hbio : env.bioAllocOk = true)
    (hwr : 0 < env.bioWriteRet) (hopen : env.targetOpenOk = true)
    (hmd : env.mdctxOk = true) (hdi : env.digestInitOk = true)
    (hup : (hashChunks env.targetChunks env.digestUpdateFailAt 0).2.2 = false)
    (hdf : env.digestFinalOk = true) (hpem : env.pemParseOk = true)
    (hctx : env.pkeyCtxOk = true) (hvi : env.verifyInitOk = true)
    (hpad : env.paddingOk = true) (hmdset : env.setMdOk = true)
    (hkc : env.keyCheckOk = true) (hso : env.sigOpenOk = true)
    (hlen : env.sigBytes.length ≠ 512) :
    (verify env p).ok = false ∧
    (verify env p).lastError = errSigSize env.sigBytes.length ∧
    ∀ s d, Event.pkeyVerify s d ∉ (verify env p).trace := by
  have hok : (verify env p).ok = false := by
    cases hv : (verify env p).ok with
    | false => rfl
    | true =>
      obtain ⟨_, _, _, _, _, _, _, _, _, _, _, _, _, _, _, h512, _⟩ :=
        (verify_ok_iff env p).mp hv
      exact absurd h512 hlen
  refine ⟨hok, ?_, ?_⟩
  · rw [verify_err env p hok]
    unfold firstFailMsg firstFailMsgTail
    rw [if_neg (Nat.not_lt.mpr hkey)]
    simp [hbio, not_le.mpr hwr, hopen, hmd, hdi, hup, hdf, hpem, hctx, hvi,
      hpad, hmdset, hkc, hso, hlen]
  · intro s d hmem
    exact hlen (pkeyVerify_mem_verify env p s d hmem).1

/-- Witness for C4 at a concrete input: a 511-byte signature file. -/
theorem claim_C4_witness :
    (verify envShortSig "/a/b/prog.bin").ok = false ∧
    (verify envShortSig "/a/b/prog.bin").lastError = errSigSize 511 := by
  have h := claim_C4 envShortSig "/a/b/prog.bin" (by decide) (by decide)
    (by decide) (by decide) (by decide) (by decide) (by decide) (by decide)
    (by decide) (by decide) (by decide) (by decide) (by decide) (by decide)
    (by decide) (by decide)
  exact ⟨h.1, h.2.1⟩

/-- C5: when the embedded public key text exceeds 800 bytes, `verify` fails
immediately with the size diagnostic and performs no external call at all —
in particular the target file is never opened. -/
theorem claim_C5 (env : Env) (p : String) (h : 800 < env.pubKey.length) :
    (verify env p).ok = false ∧
    (verify env p).lastError = errKeySize env.pubKey.length ∧
    (verify env p).trace = [] ∧
    ∀ q b, Event.targetOpen q b ∉ (verify env p).trace := by
  unfold verify
  rw [if_pos h]
  simp

/-- Witness for C5 at a concrete input (801-byte embedded key). -/
theorem claim_C5_witness :
    800 < envBadKey.pubKey.length ∧
    (verify envBadKey "/t").ok = false ∧
    (verify envBadKey "/t").trace = [] := by
  have h := claim_C5 envBadKey "/t" (by decide)
  exact ⟨by decide, h.1, h.2.2.1⟩

/-- C6 counterexample: when `EVP_PKEY_verify` reports an internal error
(-1), `verify` records exactly the same diagnostic as when it reports the
signature invalid (0) — the two outcomes are not distinguishable from the
diagnostic, contrary to the claim. -/
theorem claim_C6_cex :
    (verify envInternalErr "/a/b/prog.bin").ok = false ∧
    (verify envInternalErr "/a/b/prog.bin").lastError
      = (verify envMismatch "/a/b/prog.bin").lastError ∧
    (verify envMismatch "/a/b/prog.bin").ok = false := by
  decide

/-- C6 (amended): when `EVP_PKEY_verify` reports anything other than 1 —
a genuine mismatch (0) or an internal error (negative) — `verify` returns
`ok = false` with the single shared diagnostic
`Executable's signature does not match signature file`; the source checks
only `result != 1` and does not distinguish the two cases. -/
theorem claim_C6 (env : Env) (p : String)
    (hkey : env.pubKey.length ≤ 800) (hbio : env.bioAllocOk = true)
    (hwr : 0 < env.bioWriteRet) (hopen : env.targetOpenOk = true)
    (hmd : env.mdctxOk = true) (hdi : env.digestInitOk = true)
    (hup : (hashChunks env.targetChunks env.digestUpdateFailAt 0).2.2 = false)
    (hdf : env.digestFinalOk = true) (hpem : env.pemParseOk = true)
    (hctx : env.pkeyCtxOk = true) (hvi : env.verifyInitOk = true)
    (hpad : env.paddingOk = true) (hmdset : env.setMdOk = true)
    (hkc : env.keyCheckOk = true) (hso : env.sigOpenOk = true)
    (hlen : env.sigBytes.length = 512) (hv : env.verifyResult ≠ 1) :
    (verify env p).ok = false ∧
    (verify env p).lastError = errVerifyFail := by
  have hok : (verify env p).ok = false := by
    cases hres : (verify env p).ok with
    | false => rfl
    | true =>
      obtain ⟨_, _, _, _, _, _, _, _, _, _, _, _, _, _, _, _, h1⟩ :=
        (verify_ok_iff env p).mp hres
      exact absurd h1 hv
  refine ⟨hok, ?_⟩
  rw [verify_err env p hok]
  unfold firstFailMsg firstFailMsgTail
  rw [if_neg (Nat.not_lt.mpr hkey)]
  simp [hbio, not_le.mpr hwr, hopen, hmd, hdi, hup, hdf, hpem, hctx, hvi,
    hpad, hmdset, hkc, hso, hlen, hv]

/-- Witness for C6 (amended) at a concrete input: internal error (-1). -/
theorem claim_C6_witness :
    (verify envInternalErr "/a/b/prog.bin").ok = false ∧
    (verify envInternalErr "/a/b/prog.bin").lastError = errVerifyFail := by
  exact claim_C6 envInternalErr "/a/b/prog.bin" (by decide) (by decide)
    (by decide) (by decide) (by decide) (by decide) (by decide) (by decide)
    (by decide) (by decide) (by decide) (by decide) (by decide) (by decide)
    (by decide) (by decide) (by decide)

/-- C7 counterexample: a call in which key materialization
(`PEM_read_bio_PUBKEY`) fails, yet the target file was opened and read —
the source parses the key only after hashing the target, so the claimed
"key never materialized ⇒ target never opened" ordering is false. -/
theorem claim_C7_cex :
    (verify envPemFail "/a/b/prog.bin").ok = false ∧
    (verify envPemFail "/a/b/prog.bin").lastError = errPemParse ∧
    Event.targetOpen "/a/b/prog.bin" true
      ∈ (verify envPemFail "/a/b/prog.bin").trace ∧
    Event.targetRead [1, 2, 3] ∈ (verify envPemFail "/a/b/prog.bin").trace := by
  decide

/-- C7 (amended): the pipeline order is key size check → BIO setup → open
target → stream-hash → finalize → materialize key → RSA context setup →
derive signature path → read signature → verify.  Key materialization is
attempted only after the target file has been opened, fully read, and
closed; a failed materialization still yields `ok = false`. -/
theorem claim_C7 (env : Env) (p : String) :
    (∀ b : Bool, Event.pemParse b ∈ (verify env p).trace →
      Event.targetOpen p true ∈ (verify env p).trace ∧
      Event.targetClose ∈ (verify env p).trace) ∧
    (env.pemParseOk = false → (verify env p).ok = false) := by
  refine ⟨fun b hb => pemParse_mem_verify env p b hb, fun hpem => ?_⟩
  cases hv : (verify env p).ok with
  | false => rfl
  | true =>
    obtain ⟨_, _, _, _, _, _, _, _, h9, _⟩ := (verify_ok_iff env p).mp hv
    rw [hpem] at h9
    exact absurd h9 (by decide)

/-- Witness for C7 (amended) at a concrete input: key materialization fails
and the target had been opened. -/
theorem claim_C7_witness :
    Event.targetOpen "/a/b/prog.bin" true
      ∈ (verify envPemFail "/a/b/prog.bin").trace ∧
    (verify envPemFail "/a/b/prog.bin").ok = false := by
  refine ⟨((claim_C7 envPemFail "/a/b/prog.bin").1 false (by decide)).1, ?_⟩
  exact (claim_C7 envPemFail "/a/b/prog.bin").2 (by decide)

/-- C8 (code bug): the source does not release every acquired resource on
every exit path.  Even on a fully successful run the parsed public key
handle (`EVP_PKEY`) is acquired and never released (`EVP_PKEY_free` appears
nowhere in the function); and when `EVP_DigestInit_ex` fails, the function
returns without `fclose(datafile)` or `EVP_MD_CTX_free(mdctx)`, leaking the
target file handle and the digest context. -/
theorem claim_C8 :
    (verify envOK "/a/b/prog.bin").ok = true ∧
    Resource.pkey ∈ acquiredResources (verify envOK "/a/b/prog.bin").trace ∧
    Resource.pkey ∉ releasedResources (verify envOK "/a/b/prog.bin").trace ∧
    Resource.targetFile
      ∈ acquiredResources (verify envDigestInitFail "/a/b/prog.bin").trace ∧
    Resource.targetFile
      ∉ releasedResources (verify envDigestInitFail "/a/b/prog.bin").trace ∧
    Resource.mdctx
      ∈ acquiredResources (verify envDigestInitFail "/a/b/prog.bin").trace ∧
    Resource.mdctx
      ∉ releasedResources (verify envDigestInitFail "/a/b/prog.bin").trace := by
  decide

/-- C9: the wide-string overload converts the wide path and delegates to the
single-byte overload, so whenever the conversion yields the single-byte
path, the two overloads return identical results. -/
theorem claim_C9 (toBytes : List Nat → String) (env : Env)
    (w : List Nat) (s : String) (h : toBytes w = s) :
    verifyWide toBytes env w = verify env s := by
  unfold verifyWide
  rw [h]

/-- Witness for C9 at a concrete wide path (`[47, 116]`, i.e. `/t`). -/
theorem claim_C9_witness :
    toBytesASCII [47, 116] = "/t" ∧
    verifyWide toBytesASCII envOK [47, 116] = verify envOK "/t" := by
  have h : toBytesASCII [47, 116] = "/t" := by decide
  exact ⟨h, claim_C9 toBytesASCII envOK [47, 116] "/t" h⟩

/-- C10: a target read returning 0 bytes ends the hashing loop exactly like
end-of-file: with no injected digest-update failure the run reaches the
digest finalize over just the bytes read so far (`bytesUntilStop`), records
no loop diagnostic, and proceeds to open the signature file; a zero-byte
target yields the digest of the empty byte sequence. -/
theorem claim_C10 (env : Env) (p : String)
    (hkey : env.pubKey.length ≤ 800) (hbio : env.bioAllocOk = true)
    (hwr : 0 < env.bioWriteRet) (hopen : env.targetOpenOk = true)
    (hmd : env.mdctxOk = true) (hdi : env.digestInitOk = true)
    (hfail : env.digestUpdateFailAt = none)
    (hdf : env.digestFinalOk = true) (hpem : env.pemParseOk = true)
    (hctx : env.pkeyCtxOk = true) (hvi : env.verifyInitOk = true)
    (hpad : env.paddingOk = true) (hmdset : env.setMdOk = true)
    (hkc : env.keyCheckOk = true) :
    Event.digestFinal (bytesUntilStop env.targetChunks) true
        ∈ (verify env p).trace ∧
    Event.sigOpen (sigFilePath p) env.sigOpenOk ∈ (verify env p).trace ∧
    (env.targetChunks = [] →
      Event.digestFinal [] true ∈ (verify env p).trace) := by
  have hup : (hashChunks env.targetChunks env.digestUpdateFailAt 0).2.2 = false := by
    rw [hfail]
    exact (hashChunks_none env.targetChunks 0).1
  have hbytes : (hashChunks env.targetChunks env.digestUpdateFailAt 0).2.1
      = bytesUntilStop env.targetChunks := by
    rw [hfail]
    exact (hashChunks_none env.targetChunks 0).2
  have hred := verify_reaches_rsa env p hkey hbio hwr hopen hmd hdi hup hdf
  have hfin : Event.digestFinal (bytesUntilStop env.targetChunks) true
      ∈ (verify env p).trace := by
    rw [hred]
    apply mem_rsaStage_trace
    unfold hashedTrace
    simp [hbytes]
  refine ⟨hfin, ?_, ?_⟩
  · rw [hred]
    exact sigOpen_mem_rsaStage env p _ _ hpem hctx hvi hpad hmdset hkc
  · intro hc
    have : bytesUntilStop env.targetChunks = [] := by
      rw [hc]
      rfl
    rw [this] at hfin
    exact hfin

/-- Witness for C10 at a concrete input where the second read returns 0
bytes with data remaining: the digest is over `[1, 2]` alone and the run
still reaches the signature file. -/
theorem claim_C10_witness :
    Event.digestFinal [1, 2] true ∈ (verify envEarlyStop "/a/b/prog.bin").trace ∧
    Event.sigOpen (sigFilePath "/a/b/prog.bin") true
      ∈ (verify envEarlyStop "/a/b/prog.bin").trace := by
  have h := claim_C10 envEarlyStop "/a/b/prog.bin" (by decide) (by decide)
    (by decide) (by decide) (by decide) (by decide) (by decide) (by decide)
    (by decide) (by decide) (by decide) (by decide) (by decide) (by decide)
  exact ⟨h.1, h.2.1⟩

end ExecSigLinux
